import Mathlib

/-!
Verification development for the plan2scene-webapp repository: a web
front-end and job-orchestration shim around the Plan2Scene pipeline.

The React front-end (frontend/src) is embedded directly from its
TypeScript source.  The FastAPI backend (backend/app: main.py, worker.py,
services/plan2scene.py) is not part of the available sources; its job
store, job state machine and pipeline runner are therefore modelled from
the specification, with each such definition marked
"Modelled from the spec:" in its doc comment.
-/

/-- Embeds the browser File objects handled by the front-end: a name and a
MIME type, the two fields the code reads. -/
structure BrowserFile where
  name : String
  type : String
  deriving DecidableEq, Repr

/-- Embeds the JavaScript expression s.startsWith p used by the front-end:
a character-wise prefix test on the string contents. -/
def jsStartsWith (s p : String) : Bool := p.data.isPrefixOf s.data

/-- Embeds handleDrop of frontend/src/components/UploadZone.tsx: reads the
first file of the drop event and calls onFileSelect on it exactly when it
exists and its MIME type starts with "image/".  The result is the argument
passed to onFileSelect, or none when onFileSelect is not invoked. -/
def handleDrop (files : List BrowserFile) : Option BrowserFile :=
  match files with
  | [] => none
  | file :: _ => if jsStartsWith file.type "image/" then some file else none

/-- The file-selection state of App.tsx after a drop event on the upload
zone: handleDrop either invokes onFileSelect, replacing the selection, or
does nothing, leaving the selection unchanged. -/
def selectionAfterDrop (current : Option BrowserFile) (files : List BrowserFile) :
    Option BrowserFile :=
  match handleDrop files with
  | some f => some f
  | none => current

/-- Embeds one entry of demoSteps in
frontend/src/components/ProcessingSteps.tsx. -/
structure DemoStep where
  id : Nat
  label : String
  delay : Nat
  deriving DecidableEq, Repr

/-- Embeds demoSteps of frontend/src/components/ProcessingSteps.tsx: the
four simulated demo-mode stages with their fixed millisecond delays. -/
def demoSteps : List DemoStep :=
  [{ id := 1, label := "Analyzing Geometry", delay := 0 },
   { id := 2, label := "Rectifying Surfaces", delay := 1000 },
   { id := 3, label := "Synthesizing Textures", delay := 2000 },
   { id := 4, label := "Rendering 3D Scene", delay := 3000 }]

/-- Embeds one entry of fullGpuSteps in
frontend/src/components/ProcessingSteps.tsx. -/
structure GpuStep where
  id : Nat
  label : String
  key : String
  deriving DecidableEq, Repr

/-- Embeds fullGpuSteps of frontend/src/components/ProcessingSteps.tsx:
the seven real full-pipeline stages, keyed by the backend stage names. -/
def fullGpuSteps : List GpuStep :=
  [{ id := 1, label := "Vector to scene.json", key := "convert_r2v" },
   { id := 2, label := "Room Embeddings", key := "fill_room_embeddings" },
   { id := 3, label := "VGG Crop Selection", key := "vgg_crop_selector" },
   { id := 4, label := "GNN Texture Propagation", key := "gnn_texture_prop" },
   { id := 5, label := "Seam Correction", key := "seam_correct_textures" },
   { id := 6, label := "Texture Embedding", key := "embed_textures" },
   { id := 7, label := "Rendering", key := "rendering" }]

/-- Job status values of the JobStatusResponse in frontend/src/api.ts and
of the spec's job state machine: queued, processing, done, failed. -/
inductive Status where
  | queued
  | processing
  | done
  | failed
  deriving DecidableEq, Repr

/-- Modelled from the spec: the Job record of the missing backend JobStore
(backend/app/main.py and worker.py are not in the sources).  Field names
follow the spec's data model and the JobStatusResponse of
frontend/src/api.ts; the opaque job identifier is modelled as a Nat. -/
structure Job where
  job_id : Nat
  status : Status
  current_stage : Option String
  failed_stage : Option String
  error : Option String
  scene_url : Option String
  video_url : Option String
  pipeline_mode : String
  deriving DecidableEq, Repr

/-- Modelled from the spec: the job record allocated by the missing
JobService at a valid submission, in state queued with every optional
field unset. -/
def initialJob (id : Nat) (pm : String) : Job :=
  { job_id := id, status := Status.queued, current_stage := none,
    failed_stage := none, error := none, scene_url := none,
    video_url := none, pipeline_mode := pm }

/-- Labels of the four demo-mode stages, from demoSteps. -/
def demoStageLabels : List String := demoSteps.map (fun s => s.label)

/-- Backend stage keys of the seven full-pipeline stages, from
fullGpuSteps. -/
def fullStageKeys : List String := fullGpuSteps.map (fun s => s.key)

/-- Modelled from the spec: the two-stage preprocessed sequence (texture
propagation then rendering) of the missing backend pipeline runner. -/
def preprocessedStageKeys : List String := ["gnn_texture_prop", "rendering"]

/-- Modelled from the spec: stage-sequence selection of the missing
backend PipelineRunner, fixed at job creation from pipeline_mode.  The
demo and full stage lists themselves come from
frontend/src/components/ProcessingSteps.tsx. -/
def stageSequence (pm : String) : List String :=
  if pm = "demo" then demoStageLabels
  else if pm = "preprocessed" then preprocessedStageKeys
  else fullStageKeys

/-- Modelled from the spec: the output directory a stage of the missing
backend pipeline runner populates inside the job's working directory. -/
def stageOutputDir (workdir : String) (seq : List String) (i : Nat) : String :=
  workdir ++ "/" ++ seq.getD i ""

/-- Modelled from the spec: the input directory a stage of the missing
backend pipeline runner reads; stage zero reads the initial converted
input, and every later stage reads the prior stage's output directory. -/
def stageInputDir (workdir : String) (seq : List String) (i : Nat) : String :=
  match i with
  | 0 => workdir ++ "/input"
  | k + 1 => stageOutputDir workdir seq k

/-- Execution events of the modelled pipeline runner: a stage starting,
reporting success, or reporting failure. -/
inductive Ev where
  | start (stage : String)
  | success (stage : String)
  | failure (stage : String)
  deriving DecidableEq, Repr

/-- Modelled from the spec: the stable relative URL the missing
AssetPublisher assigns to one output artifact of a job. -/
def assetUrl (id : Nat) (file : String) : String :=
  "/static/jobs/" ++ toString id ++ "/" ++ file

/-- Modelled from the spec: the terminal update applied by the missing
PipelineRunner when the last stage succeeds, setting status done and the
artifact URLs resolved by the AssetPublisher. -/
def finalizeDone (j : Job) : Job :=
  { j with status := Status.done,
           scene_url := some (assetUrl j.job_id "scene.glb"),
           video_url := some (assetUrl j.job_id "walkthrough.mp4") }

/-- Modelled from the spec: the terminal update applied by the missing
PipelineRunner when a stage reports failure, setting status failed with
the failing stage name and the captured diagnostic text. -/
def failAt (j : Job) (stage diagText : String) : Job :=
  { j with status := Status.failed, current_stage := some stage,
           failed_stage := some stage, error := some diagText }

/-- Modelled from the spec: the missing backend PipelineRunner
(backend/app/worker.py with services/plan2scene.py).  It runs the stage
list strictly in order; outcome s = none means the StageExecutor for s
reported success, and outcome s = some d means it failed with diagnostic
text d.  Returns the final job record together with the ordered trace of
stage start and completion events. -/
def runStages (outcome : String → Option String) : List String → Job → Job × List Ev
  | [], j => (finalizeDone j, [])
  | s :: rest, j =>
    let js : Job := { j with status := Status.processing, current_stage := some s }
    match outcome s with
    | none =>
      let r := runStages outcome rest js
      (r.1, Ev.start s :: Ev.success s :: r.2)
    | some d => (failAt js s d, [Ev.start s, Ev.failure s])

/-- Event trace of the modelled pipeline runner, independent of the job
record it is threading. -/
def runEvents (outcome : String → Option String) : List String → List Ev
  | [] => []
  | s :: rest =>
    match outcome s with
    | none => Ev.start s :: Ev.success s :: runEvents outcome rest
    | some _ => [Ev.start s, Ev.failure s]

/-- Stages that actually began executing, read off an event trace. -/
def startedStages (evs : List Ev) : List String :=
  evs.filterMap (fun e => match e with | Ev.start s => some s | _ => none)

/-- Modelled from the spec: demo-mode stages are timed no-ops, so their
StageExecutor always reports success. -/
def demoOutcome : String → Option String := fun _ => none

/-- Modelled from the spec: the fixed pre-built sample assets (the
backend demo_assets directory) copied by the missing demo runner. -/
def demoSampleAssets : List String := ["scene.glb", "walkthrough.mp4"]

/-- Modelled from the spec: the copy of the fixed sample assets into the
job's output directory performed by the missing demo runner; each pair is
a source asset and its destination under the job's static directory. -/
def copyDemoAssets (id : Nat) : List (String × String) :=
  demoSampleAssets.map (fun a => ("demo_assets/" ++ a, assetUrl id a))

/-- Modelled from the spec: a complete demo-mode run of the missing
pipeline runner on one job: the four simulated stages followed by the
sample-asset copy.  Returns the final job record and the performed
copies. -/
def runDemoJob (j : Job) : Job × List (String × String) :=
  ((runStages demoOutcome (stageSequence "demo") j).1, copyDemoAssets j.job_id)

/-- C3: in full pipeline mode the stage sequence is exactly the seven
stages convert_r2v, fill_room_embeddings, vgg_crop_selector,
gnn_texture_prop, seam_correct_textures, embed_textures, rendering, in
this order, and every stage after the first consumes the prior stage's
output directory as its input directory. -/
theorem full_mode_seven_stages_chained :
    stageSequence "full" =
      ["convert_r2v", "fill_room_embeddings", "vgg_crop_selector",
       "gnn_texture_prop", "seam_correct_textures", "embed_textures",
       "rendering"] ∧
    (stageSequence "full").length = 7 ∧
    ∀ (workdir : String) (k : Nat),
      stageInputDir workdir (stageSequence "full") (k + 1) =
        stageOutputDir workdir (stageSequence "full") k := by
  refine ⟨by decide, by decide, ?_⟩
  intro workdir k
  rfl

/-- C4: in demo pipeline mode the stage sequence consists of exactly four
simulated stages with fixed deterministic delays, after which the fixed
set of pre-built sample assets is copied into the job's output directory
and the job ends with status done. -/
theorem demo_mode_four_stages_done :
    ∀ j : Job,
      demoSteps.length = 4 ∧
      demoSteps.map (fun s => s.delay) = [0, 1000, 2000, 3000] ∧
      (stageSequence "demo").length = 4 ∧
      startedStages (runStages demoOutcome (stageSequence "demo") j).2 =
        stageSequence "demo" ∧
      (runDemoJob j).2 =
        [("demo_assets/scene.glb", assetUrl j.job_id "scene.glb"),
         ("demo_assets/walkthrough.mp4", assetUrl j.job_id "walkthrough.mp4")] ∧
      (runDemoJob j).1.status = Status.done := by
  intro j
  exact ⟨by decide, by decide, by decide, rfl, rfl, rfl⟩

/-- C10: the upload-zone drop handler invokes onFileSelect, with the first
dropped file, exactly when that first file exists and its MIME type
starts with "image/"; any other drop leaves the current file selection
unchanged. -/
theorem handleDrop_image_filter :
    ∀ (files : List BrowserFile) (f : BrowserFile),
      (handleDrop files = some f ↔
        (files.head? = some f ∧ jsStartsWith f.type "image/" = true)) ∧
      ∀ current : Option BrowserFile,
        selectionAfterDrop current files = (handleDrop files).or current := by
  intro files f
  constructor
  · cases files with
    | nil => simp [handleDrop]
    | cons a rest =>
      by_cases h : jsStartsWith a.type "image/" = true
      · constructor
        · intro hd
          simp only [handleDrop, h, if_pos] at hd
          cases hd
          exact ⟨rfl, h⟩
        · rintro ⟨hd, hf⟩
          cases hd
          simp [handleDrop, h]
      · constructor
        · intro hd
          simp [handleDrop, h] at hd
        · rintro ⟨hd, hf⟩
          cases hd
          exact absurd hf h
  · intro current
    cases hd : handleDrop files with
    | none => simp [selectionAfterDrop, hd, Option.or]
    | some g => simp [selectionAfterDrop, hd, Option.or]

/-- Process-wide deployment configuration of the backend: run mode,
pipeline mode, and whether the GPU is enabled, fixed per deployment. -/
structure Deployment where
  mode : String
  pipeline_mode : String
  gpu_enabled : Bool
  deriving DecidableEq, Repr

/-- Response body of GET /config: exactly the fields mode, pipeline_mode
and gpu_enabled, as declared by PipelineConfig in frontend/src/api.ts and
read by App.tsx. -/
structure ConfigResponse where
  mode : String
  pipeline_mode : String
  gpu_enabled : Bool
  deriving DecidableEq, Repr

/-- Modelled from the spec: the missing GET /config handler of
backend/app/main.py.  It depends only on the fixed deployment
configuration, not on the call (the call index argument records that
repeated calls exist). -/
def configEndpoint (d : Deployment) (_call : Nat) : ConfigResponse :=
  { mode := d.mode, pipeline_mode := d.pipeline_mode, gpu_enabled := d.gpu_enabled }

/-- C8: GET /config returns an object holding exactly the three
process-wide fields mode, pipeline_mode and gpu_enabled, and for a fixed
deployment every call returns the same value. -/
theorem config_static_three_fields :
    ∀ (d : Deployment) (n m : Nat),
      configEndpoint d n = configEndpoint d m ∧
      configEndpoint d n =
        { mode := d.mode, pipeline_mode := d.pipeline_mode,
          gpu_enabled := d.gpu_enabled } ∧
      ∀ c : ConfigResponse,
        c = { mode := c.mode, pipeline_mode := c.pipeline_mode,
              gpu_enabled := c.gpu_enabled } := by
  intro d n m
  exact ⟨rfl, rfl, fun c => rfl⟩

/-- Modelled from the spec: the missing backend JobStore, a process-wide
mapping from job identifier to job record plus the identifier-generation
counter; records are never deleted. -/
structure JobStore where
  jobs : List Job
  counter : Nat
  deriving Repr

/-- Modelled from the spec: JobStore.get, looking a job record up by its
identifier. -/
def getJob (st : JobStore) (id : Nat) : Option Job :=
  st.jobs.find? (fun j => j.job_id == id)

/-- Identifier-generation invariant of the modelled JobStore: every
stored job identifier was allocated below the current counter, so the
next allocated identifier is fresh. -/
def idInvariant (st : JobStore) : Prop :=
  ∀ j ∈ st.jobs, j.job_id < st.counter

/-- Modelled from the spec: upload validation of the missing JobService:
an image file must be present and be of an accepted image type, the
image/* MIME types matching the front-end's accept filter. -/
def isValidUpload : Option BrowserFile → Bool
  | some f => jsStartsWith f.type "image/"
  | none => false

/-- Response body of POST /convert, as declared by JobCreateResponse in
frontend/src/api.ts: the new job identifier and its status. -/
structure JobCreateResponse where
  job_id : Nat
  status : Status
  deriving DecidableEq, Repr

/-- Modelled from the spec: the missing POST /convert handler
(JobService.submit).  A valid submission allocates a fresh identifier,
stores a queued job record, and returns the identifier with status
queued; an invalid submission is rejected and no job is created. -/
def submit (st : JobStore) (pm : String) (f : Option BrowserFile) :
    Option (JobStore × JobCreateResponse) :=
  if isValidUpload f then
    some ({ jobs := initialJob st.counter pm :: st.jobs, counter := st.counter + 1 },
          { job_id := st.counter, status := Status.queued })
  else none

/-- Modelled from the spec: the missing GET /jobs handler
(JobService.status): a pure read of the JobStore, returning the job view
when the identifier is known and a not-found result otherwise, together
with the store it leaves behind. -/
def statusQuery (st : JobStore) (id : Nat) : Option Job × JobStore :=
  (getJob st id, st)

/-- C5: a valid submission creates a job and returns its fresh identifier
with status queued; the identifier was never used before (so identifiers
stay unique for the process lifetime), the freshness invariant is
preserved, and the identifier immediately resolves through the status
query to a job in status queued or processing. -/
theorem submit_creates_fresh_queued_job :
    ∀ (st : JobStore) (pm : String) (f : Option BrowserFile),
      idInvariant st → isValidUpload f = true →
      ∃ (st' : JobStore) (r : JobCreateResponse),
        submit st pm f = some (st', r) ∧
        r.status = Status.queued ∧
        getJob st r.job_id = none ∧
        st'.jobs = initialJob st.counter pm :: st.jobs ∧
        idInvariant st' ∧
        ∃ jb : Job, (statusQuery st' r.job_id).1 = some jb ∧
          (jb.status = Status.queued ∨ jb.status = Status.processing) := by
  intro st pm f hinv hval
  refine ⟨{ jobs := initialJob st.counter pm :: st.jobs, counter := st.counter + 1 },
          { job_id := st.counter, status := Status.queued },
          by simp [submit, hval], rfl, ?_, rfl, ?_, ?_⟩
  · apply List.find?_eq_none.mpr
    intro j hj
    simp only [beq_iff_eq]
    exact Nat.ne_of_lt (hinv j hj)
  · intro j hj
    rcases List.mem_cons.mp hj with h | h
    · subst h
      simp [initialJob]
    · exact Nat.lt_trans (hinv j h) (Nat.lt_succ_self _)
  · refine ⟨initialJob st.counter pm, ?_, Or.inl rfl⟩
    simp [statusQuery, getJob, List.find?, initialJob]

/-- Witness for C5 at a concrete store and upload. -/
theorem submit_creates_fresh_queued_job_witness :
    ∃ (st' : JobStore) (r : JobCreateResponse),
      submit { jobs := [], counter := 0 } "demo"
          (some { name := "plan.png", type := "image/png" }) = some (st', r) ∧
      r.status = Status.queued ∧
      getJob { jobs := [], counter := 0 } r.job_id = none ∧
      st'.jobs = initialJob 0 "demo" :: [] ∧
      idInvariant st' ∧
      ∃ jb : Job, (statusQuery st' r.job_id).1 = some jb ∧
        (jb.status = Status.queued ∨ jb.status = Status.processing) :=
  submit_creates_fresh_queued_job { jobs := [], counter := 0 } "demo"
    (some { name := "plan.png", type := "image/png" })
    (by intro j hj; simp at hj) (by decide)

/-- C6: a status query for an identifier not present in the job store
returns a not-found result, distinct from every representation of an
existing job (in particular from any failed job), and neither creates
nor mutates any job state. -/
theorem unknown_job_not_found :
    ∀ (st : JobStore) (id : Nat),
      (∀ j ∈ st.jobs, j.job_id ≠ id) →
      (statusQuery st id).1 = none ∧
      (statusQuery st id).2 = st ∧
      ∀ jb : Job, (statusQuery st id).1 ≠ some jb := by
  intro st id h
  have hnone : getJob st id = none := by
    apply List.find?_eq_none.mpr
    intro j hj
    simp only [beq_iff_eq]
    exact h j hj
  refine ⟨hnone, rfl, ?_⟩
  intro jb
  simp [statusQuery, hnone]

/-- Witness for C6: a store holding one failed job, queried with an
unknown identifier. -/
theorem unknown_job_not_found_witness :
    (statusQuery
        { jobs := [{ job_id := 0, status := Status.failed, current_stage := none,
                     failed_stage := some "rendering", error := some "exit code 1",
                     scene_url := none, video_url := none, pipeline_mode := "full" }],
          counter := 1 } 7).1 = none ∧
    (statusQuery
        { jobs := [{ job_id := 0, status := Status.failed, current_stage := none,
                     failed_stage := some "rendering", error := some "exit code 1",
                     scene_url := none, video_url := none, pipeline_mode := "full" }],
          counter := 1 } 7).2 =
      { jobs := [{ job_id := 0, status := Status.failed, current_stage := none,
                   failed_stage := some "rendering", error := some "exit code 1",
                   scene_url := none, video_url := none, pipeline_mode := "full" }],
        counter := 1 } ∧
    ∀ jb : Job,
      (statusQuery
          { jobs := [{ job_id := 0, status := Status.failed, current_stage := none,
                       failed_stage := some "rendering", error := some "exit code 1",
                       scene_url := none, video_url := none, pipeline_mode := "full" }],
            counter := 1 } 7).1 ≠ some jb :=
  unknown_job_not_found
    { jobs := [{ job_id := 0, status := Status.failed, current_stage := none,
                 failed_stage := some "rendering", error := some "exit code 1",
                 scene_url := none, video_url := none, pipeline_mode := "full" }],
      counter := 1 } 7 (by decide)

/-- Successor of a stage name in a stage sequence. -/
def nextStage : List String → String → Option String
  | [], _ => none
  | [_], _ => none
  | a :: b :: rest, s => if a = s then some b else nextStage (b :: rest) s

/-- Modelled from the spec: the observable JobStore transitions of the
missing PipelineRunner on one job record.  A queued job starts processing
at the first stage of its selected sequence; a processing job advances
its current stage on stage success, finishes done after the last stage
succeeds, or fails the first time a stage reports failure with a
non-empty diagnostic; done and failed admit no transition. -/
inductive Step : Job → Job → Prop where
  | start (j : Job) (h : j.status = Status.queued) :
      Step j { j with status := Status.processing,
                      current_stage := (stageSequence j.pipeline_mode).head? }
  | advance (j : Job) (s nxt : String) (h : j.status = Status.processing)
      (hc : j.current_stage = some s)
      (hn : nextStage (stageSequence j.pipeline_mode) s = some nxt) :
      Step j { j with current_stage := some nxt }
  | finish (j : Job) (s : String) (h : j.status = Status.processing)
      (hc : j.current_stage = some s)
      (hl : (stageSequence j.pipeline_mode).getLast? = some s) :
      Step j (finalizeDone j)
  | fail (j : Job) (s d : String) (h : j.status = Status.processing)
      (hc : j.current_stage = some s) (hd : d ≠ "") :
      Step j { j with status := Status.failed, failed_stage := some s,
                      error := some d }

/-- Field population invariant of a job record: the artifact URLs are
present exactly in status done, and the failing stage and error text are
present exactly in status failed. -/
def fieldInvariant (j : Job) : Prop :=
  (j.scene_url.isSome = true ↔ j.status = Status.done) ∧
  (j.video_url.isSome = true ↔ j.status = Status.done) ∧
  (j.failed_stage.isSome = true ↔ j.status = Status.failed) ∧
  (j.error.isSome = true ↔ j.status = Status.failed)

/-- A terminal job record admits no further transition. -/
theorem no_step_of_terminal {j j' : Job}
    (hterm : j.status = Status.done ∨ j.status = Status.failed)
    (h : Step j j') : False := by
  cases h with
  | start hq => rcases hterm with ht | ht <;> rw [hq] at ht <;> exact Status.noConfusion ht
  | advance s nxt hp hc hn =>
      rcases hterm with ht | ht <;> rw [hp] at ht <;> exact Status.noConfusion ht
  | finish s hp hc hl =>
      rcases hterm with ht | ht <;> rw [hp] at ht <;> exact Status.noConfusion ht
  | fail s d hp hc hd =>
      rcases hterm with ht | ht <;> rw [hp] at ht <;> exact Status.noConfusion ht

/-- C1: a job's status only moves forward along the chain queued, then
processing, then exactly one of done or failed, and a terminal job is
final: every later observation of it is the same record. -/
theorem status_forward_and_terminal_final :
    (∀ j j' : Job, Step j j' →
      (j.status = Status.queued ∧ j'.status = Status.processing) ∨
      (j.status = Status.processing ∧
        (j'.status = Status.processing ∨ j'.status = Status.done ∨
         j'.status = Status.failed))) ∧
    (∀ j j' : Job, (j.status = Status.done ∨ j.status = Status.failed) →
      Relation.ReflTransGen Step j j' → j' = j) := by
  constructor
  · intro j j' h
    cases h with
    | start hq => exact Or.inl ⟨hq, rfl⟩
    | advance s nxt hp hc hn => exact Or.inr ⟨hp, Or.inl hp⟩
    | finish s hp hc hl => exact Or.inr ⟨hp, Or.inr (Or.inl rfl)⟩
    | fail s d hp hc hd => exact Or.inr ⟨hp, Or.inr (Or.inr rfl)⟩
  · intro j j' hterm hrt
    rcases Relation.ReflTransGen.cases_head hrt with heq | ⟨c, hc, _⟩
    · exact heq.symm
    · exact absurd hc (fun h => no_step_of_terminal hterm h)

/-- A concrete freshly created demo job, used to exercise the state
machine at a concrete input. -/
def jQueuedW : Job := initialJob 0 "demo"

/-- The record jQueuedW transitions to when the background execution is
scheduled. -/
def jStartedW : Job :=
  { jQueuedW with status := Status.processing,
                  current_stage := (stageSequence jQueuedW.pipeline_mode).head? }

/-- A concrete failed job record. -/
def jFailedW : Job := failAt (initialJob 1 "full") "rendering" "exit code 1"

/-- Witness for C1: the start transition of a concrete queued demo job,
and finality of a concrete failed job observed reflexively. -/
theorem status_forward_and_terminal_final_witness :
    (((jQueuedW.status = Status.queued ∧ jStartedW.status = Status.processing) ∨
      (jQueuedW.status = Status.processing ∧
        (jStartedW.status = Status.processing ∨ jStartedW.status = Status.done ∨
         jStartedW.status = Status.failed))) ∧
     jFailedW = jFailedW) :=
  ⟨status_forward_and_terminal_final.1 jQueuedW jStartedW
      (Step.start jQueuedW rfl),
   status_forward_and_terminal_final.2 jFailedW jFailedW
      (Or.inr rfl) Relation.ReflTransGen.refl⟩

/-- One transition preserves the field population invariant. -/
theorem fieldInvariant_step {a b : Job} (hinv : fieldInvariant a) (h : Step a b) :
    fieldInvariant b := by
  obtain ⟨h1, h2, h3, h4⟩ := hinv
  cases h with
  | start hq =>
    rw [hq] at h1 h2 h3 h4
    simp_all [fieldInvariant]
  | advance s nxt hp hc hn =>
    rw [hp] at h1 h2 h3 h4
    simp_all [fieldInvariant]
  | finish s hp hc hl =>
    rw [hp] at h1 h2 h3 h4
    simp_all [fieldInvariant, finalizeDone]
  | fail s d hp hc hd =>
    rw [hp] at h1 h2 h3 h4
    simp_all [fieldInvariant]

/-- C2: at every observable point in a job's lifetime, scene_url and
video_url are populated exactly when the status is done, and failed_stage
and error are populated exactly when the status is failed. -/
theorem url_error_fields_iff_status :
    ∀ (id : Nat) (pm : String) (j : Job),
      Relation.ReflTransGen Step (initialJob id pm) j → fieldInvariant j := by
  intro id pm j hrt
  induction hrt with
  | refl => simp [fieldInvariant, initialJob]
  | tail _ hstep ih => exact fieldInvariant_step ih hstep

/-- Witness for C2 at a concrete freshly created job. -/
theorem url_error_fields_iff_status_witness :
    fieldInvariant (initialJob 0 "demo") :=
  url_error_fields_iff_status 0 "demo" (initialJob 0 "demo")
    Relation.ReflTransGen.refl

/-- Unfolding of the modelled runner on a succeeding head stage. -/
theorem runStages_cons_success (outcome : String → Option String) (s : String)
    (rest : List String) (j : Job) (h : outcome s = none) :
    runStages outcome (s :: rest) j =
      ((runStages outcome rest
          { j with status := Status.processing, current_stage := some s }).1,
       Ev.start s :: Ev.success s ::
         (runStages outcome rest
            { j with status := Status.processing, current_stage := some s }).2) := by
  simp [runStages, h]

/-- Unfolding of the modelled runner on a failing head stage. -/
theorem runStages_cons_failure (outcome : String → Option String) (s : String)
    (rest : List String) (j : Job) (d : String) (h : outcome s = some d) :
    runStages outcome (s :: rest) j =
      (failAt { j with status := Status.processing, current_stage := some s } s d,
       [Ev.start s, Ev.failure s]) := by
  simp [runStages, h]

/-- C7: the first time a stage reports failure, the job becomes failed
with failed_stage the failing stage's name and error the non-empty
captured diagnostic text, and exactly the prior stages plus the failing
one were executed: nothing after the failing stage runs, and the earlier
stages' executions are retained. -/
theorem stage_failure_fail_fast :
    ∀ (outcome : String → Option String) (pre : List String) (sf : String)
      (post : List String) (d : String) (j : Job),
      (∀ s ∈ pre, outcome s = none) → outcome sf = some d → d ≠ "" →
      (runStages outcome (pre ++ sf :: post) j).1.status = Status.failed ∧
      (runStages outcome (pre ++ sf :: post) j).1.failed_stage = some sf ∧
      (runStages outcome (pre ++ sf :: post) j).1.error = some d ∧
      d ≠ "" ∧
      startedStages (runStages outcome (pre ++ sf :: post) j).2 = pre ++ [sf] := by
  intro outcome pre
  induction pre with
  | nil =>
    intro sf post d j hpre hf hd
    rw [List.nil_append, runStages_cons_failure outcome sf post j d hf]
    exact ⟨rfl, rfl, rfl, hd, rfl⟩
  | cons a t ih =>
    intro sf post d j hpre hf hd
    have ha : outcome a = none := hpre a (List.mem_cons_self a t)
    have ht : ∀ s ∈ t, outcome s = none := fun s hs => hpre s (List.mem_cons_of_mem a hs)
    obtain ⟨h1, h2, h3, _, h5⟩ :=
      ih sf post d { j with status := Status.processing, current_stage := some a } ht hf hd
    rw [List.cons_append, runStages_cons_success outcome a (t ++ sf :: post) j ha]
    refine ⟨h1, h2, h3, hd, ?_⟩
    simpa [startedStages] using h5

/-- Witness for C7: a three-stage sequence whose middle stage fails. -/
theorem stage_failure_fail_fast_witness :
    (runStages
        (fun s => if s = "seam_correct_textures" then some "exit code 1" else none)
        (["convert_r2v"] ++ "seam_correct_textures" :: ["rendering"])
        (initialJob 0 "full")).1.status = Status.failed ∧
    (runStages
        (fun s => if s = "seam_correct_textures" then some "exit code 1" else none)
        (["convert_r2v"] ++ "seam_correct_textures" :: ["rendering"])
        (initialJob 0 "full")).1.failed_stage = some "seam_correct_textures" ∧
    (runStages
        (fun s => if s = "seam_correct_textures" then some "exit code 1" else none)
        (["convert_r2v"] ++ "seam_correct_textures" :: ["rendering"])
        (initialJob 0 "full")).1.error = some "exit code 1" ∧
    ("exit code 1" : String) ≠ "" ∧
    startedStages
        (runStages
          (fun s => if s = "seam_correct_textures" then some "exit code 1" else none)
          (["convert_r2v"] ++ "seam_correct_textures" :: ["rendering"])
          (initialJob 0 "full")).2 = ["convert_r2v"] ++ ["seam_correct_textures"] :=
  stage_failure_fail_fast
    (fun s => if s = "seam_correct_textures" then some "exit code 1" else none)
    ["convert_r2v"] "seam_correct_textures" ["rendering"] "exit code 1"
    (initialJob 0 "full") (by decide) (by decide) (by decide)

/-- Start and success event pair of each stage of a list, the event trace
of a run in which each listed stage succeeds. -/
def pairEvents (l : List String) : List Ev :=
  l.flatMap (fun s => [Ev.start s, Ev.success s])

/-- The event trace of the modelled runner does not depend on the job
record being threaded. -/
theorem runStages_events (outcome : String → Option String) :
    ∀ (seq : List String) (j : Job),
      (runStages outcome seq j).2 = runEvents outcome seq := by
  intro seq
  induction seq with
  | nil => intro j; rfl
  | cons s rest ih =>
    intro j
    cases h : outcome s with
    | none =>
      rw [runStages_cons_success outcome s rest j h]
      simp [runEvents, h, ih]
    | some d =>
      rw [runStages_cons_failure outcome s rest j d h]
      simp [runEvents, h]

/-- When every stage of a prefix succeeds, the event trace is that
prefix's start and success pairs followed by the trace of the rest. -/
theorem runEvents_append_all_success (outcome : String → Option String) :
    ∀ (pre rest : List String), (∀ s ∈ pre, outcome s = none) →
      runEvents outcome (pre ++ rest) = pairEvents pre ++ runEvents outcome rest := by
  intro pre
  induction pre with
  | nil => intro rest h; simp [pairEvents]
  | cons a t ih =>
    intro rest h
    have ha : outcome a = none := h a (List.mem_cons_self a t)
    have ht : ∀ s ∈ t, outcome s = none := fun s hs => h s (List.mem_cons_of_mem a hs)
    rw [List.cons_append]
    simp only [runEvents, ha]
    rw [ih rest ht]
    simp [pairEvents]

/-- A start event in a trace of pure start and success pairs names one of
the paired stages. -/
theorem mem_of_start_mem_pairEvents {x : String} :
    ∀ l : List String, Ev.start x ∈ pairEvents l → x ∈ l := by
  intro l
  induction l with
  | nil => intro h; simp [pairEvents] at h
  | cons a t ih =>
    intro h
    simp only [pairEvents, List.flatMap_cons] at h
    rcases List.mem_append.mp h with h1 | h2
    · rcases List.mem_cons.mp h1 with he | h1' 
    
      · injection he with hxa
        rw [hxa]
        exact List.mem_cons_self a t
      · rcases List.mem_cons.mp h1' with he | h0
        · exact Ev.noConfusion he
        · simp at h0
    · exact List.mem_cons_of_mem a (ih h2)

/-- If a stage placed after a prefix ever starts, every stage of the
prefix reported success. -/
theorem all_success_of_start_mem (outcome : String → Option String) {x : String} :
    ∀ (pre post : List String), x ∉ pre →
      Ev.start x ∈ runEvents outcome (pre ++ x :: post) →
      ∀ y ∈ pre, outcome y = none := by
  intro pre
  induction pre with
  | nil => intro post hx hmem y hy; simp at hy
  | cons a t ih =>
    intro post hx hmem y hy
    have hxa : x ≠ a := fun he => hx (he ▸ List.mem_cons_self a t)
    have hxt : x ∉ t := fun hmt => hx (List.mem_cons_of_mem a hmt)
    rw [List.cons_append] at hmem
    cases ho : outcome a with
    | some d =>
      simp only [runEvents, ho] at hmem
      rcases List.mem_cons.mp hmem with he | hmem' 
    
      · injection he with hxa2
        exact absurd hxa2 hxa
      · rcases List.mem_cons.mp hmem' with he | h0
        · exact Ev.noConfusion he
        · simp at h0
    | none =>
      simp only [runEvents, ho] at hmem
      rcases List.mem_cons.mp hmem with he | hmem' 
    
      · injection he with hxa2
        exact absurd hxa2 hxa
      · rcases List.mem_cons.mp hmem' with he | hmem2
        · exact Ev.noConfusion he
        · rcases List.mem_cons.mp hy with hya | hyt
          · rw [hya]; exact ho
          · exact ih post hxt hmem2 y hyt

/-- Length of a pure start and success pair trace. -/
theorem pairEvents_length : ∀ l : List String, (pairEvents l).length = 2 * l.length := by
  intro l
  induction l with
  | nil => rfl
  | cons a t ih => simp [pairEvents, List.flatMap_cons] at ih ⊢; omega

/-- C9: stages of one job execute strictly in order: whenever stage k+1
of the selected sequence starts, stage k already reported success at an
earlier point of the single sequential event trace; stages of one job
never run in parallel. -/
theorem stages_strictly_ordered :
    ∀ (outcome : String → Option String) (j : Job) (seq : List String) (k i : Nat),
      seq.Nodup → k + 1 < seq.length →
      ((runStages outcome seq j).2)[i]? = some (Ev.start (seq.getD (k + 1) "")) →
      ∃ m, m < i ∧
        ((runStages outcome seq j).2)[m]? = some (Ev.success (seq.getD k "")) := by
  intro outcome j seq k i hnd hk hi
  rw [runStages_events outcome seq j] at hi
  have hk' : k < seq.length := Nat.lt_of_succ_lt hk
  have hxel : seq.getD (k + 1) "" = seq[k + 1] := by
    rw [List.getD_eq_getElem?_getD, List.getElem?_eq_getElem hk]
    rfl
  have hsk : seq.getD k "" = seq[k] := by
    rw [List.getD_eq_getElem?_getD, List.getElem?_eq_getElem hk']
    rfl
  rw [hxel] at hi
  have hsplit : seq = seq.take (k + 1) ++ seq[k + 1] :: seq.drop (k + 2) := by
    conv_lhs => rw [← List.take_append_drop (k + 1) seq]
    rw [List.drop_eq_getElem_cons hk]
  have hxpre : seq[k + 1] ∉ seq.take (k + 1) := by
    intro hmem
    have hnd' := hsplit ▸ hnd
    rcases List.nodup_append.mp hnd' with ⟨_, _, hdisj⟩
    exact hdisj hmem (List.mem_cons_self _ _)
  have hprelen : (seq.take (k + 1)).length = k + 1 :=
    List.length_take_of_le (Nat.le_of_lt hk)
  have hmem : Ev.start (seq[k + 1]) ∈ runEvents outcome seq := List.getElem?_mem hi
  have hall : ∀ y ∈ seq.take (k + 1), outcome y = none := by
    apply all_success_of_start_mem outcome (seq.take (k + 1)) (seq.drop (k + 2)) hxpre
    rw [← hsplit]
    exact hmem
  have hev : runEvents outcome seq =
      pairEvents (seq.take (k + 1)) ++
        runEvents outcome (seq[k + 1] :: seq.drop (k + 2)) := by
    conv_lhs => rw [hsplit]
    exact runEvents_append_all_success outcome (seq.take (k + 1)) _ hall
  have htake : seq.take (k + 1) = seq.take k ++ [seq[k]] := by
    rw [List.take_succ, List.getElem?_eq_getElem hk']
    rfl
  have hpe : pairEvents (seq.take (k + 1)) =
      pairEvents (seq.take k) ++ [Ev.start (seq[k]), Ev.success (seq[k])] := by
    rw [htake, pairEvents, List.flatMap_append]
    simp [pairEvents]
  have hlen2k : (pairEvents (seq.take k)).length = 2 * k := by
    rw [pairEvents_length, List.length_take_of_le (Nat.le_of_lt hk')]
  have hplen : (pairEvents (seq.take (k + 1))).length = 2 * k + 2 := by
    rw [pairEvents_length, hprelen]
    omega
  have hm : (runEvents outcome seq)[2 * k + 1]? = some (Ev.success (seq[k])) := by
    rw [hev]
    rw [List.getElem?_append_left (by omega : 2 * k + 1 < (pairEvents (seq.take (k + 1))).length)]
    rw [hpe]
    rw [List.getElem?_append_right (by omega : (pairEvents (seq.take k)).length ≤ 2 * k + 1)]
    rw [hlen2k]
    simp
  have hige : 2 * k + 2 ≤ i := by
    by_contra hlt
    push_neg at hlt
    have hleft : (runEvents outcome seq)[i]? = (pairEvents (seq.take (k + 1)))[i]? := by
      rw [hev]
      exact List.getElem?_append_left (by omega)
    rw [hleft] at hi
    exact hxpre (mem_of_start_mem_pairEvents _ (List.getElem?_mem hi))
  refine ⟨2 * k + 1, by omega, ?_⟩
  rw [runStages_events outcome seq j, hsk]
  exact hm

/-- Witness for C9: a two-stage all-success run, with the start of the
second stage observed at trace position two. -/
theorem stages_strictly_ordered_witness :
    ∃ m, m < 2 ∧
      ((runStages (fun _ => (none : Option String)) ["a", "b"]
          (initialJob 0 "full")).2)[m]? = some (Ev.success (["a", "b"].getD 0 "")) :=
  stages_strictly_ordered (fun _ => (none : Option String)) (initialJob 0 "full")
    ["a", "b"] 0 2 (by decide) (by decide) (by decide)
